import Mathlib

/-!
Verification of the CLIP fine-tuning harness in `src/finetuning.py`.

The development shallowly embeds the pieces of the program that the claims
are about:

* `EarlyStopping` (`__call__`, `_is_improvement`, `_save_checkpoint`) as a
  pure state machine `esCall` on `ESState`; scores are modelled as rationals,
  which is faithful because the Python code only compares and stores them.
* `ImageCaptionDataset.__getitem__` and `CLIPFinetuner._get_data_loaders`
  with the external augmenters and PIL image loading as abstract
  constructors (`ImageData`, `TextData`), and `torch.utils.data.Subset`
  attribute assignment modelled by separate per-subset fields.
* the `requires_grad` flags of the model's parameters (`_freeze_model`,
  `_unfreeze_blocks`, `_partial_unfreeze`, and the per-epoch schedule of
  `fit`) as `ModelParams`.
* the per-batch loss and score arithmetic of `_train`, `_validate` and
  `_clip_score` over rationals, with the model forward pass, the optimizer
  update, `exp`/`log` and the L2 norm as abstract parameters.
-/

/- ### EarlyStopping (src/finetuning.py lines 292-367) -/

/-- State of an `EarlyStopping` object: `_best_score` (initially `None`),
`_counter` and `_stop`.  The bookkeeping lists `_train_loss`, `_val_loss`
and `_val_scores` are only appended to and never read by `__call__`, so they
are not part of the state. -/
structure ESState where
  bestScore : Option ℚ
  counter : ℕ
  stop : Bool
deriving DecidableEq, Repr

/-- The initial state set up by `EarlyStopping.__init__`. -/
def esInit : ESState := { bestScore := none, counter := 0, stop := false }

/-- `EarlyStopping._is_improvement`: strictly greater in `"max"` mode,
strictly smaller otherwise. -/
def isImprovement (mode : String) (best score : ℚ) : Bool :=
  if mode = "max" then decide (best < score) else decide (score < best)

/-- `EarlyStopping.__call__` on one reported validation score.  Returns the
new state, whether `_save_checkpoint` was invoked, and the returned boolean
(`self._stop` after the update). -/
def esCall (patience : ℕ) (mode : String) (s : ESState) (score : ℚ) :
    ESState × Bool × Bool :=
  match s.bestScore with
  | none =>
      let s2 := { s with bestScore := some score }
      (s2, false, s2.stop)
  | some b =>
      if isImprovement mode b score then
        let s2 := { s with bestScore := some score, counter := 0 }
        (s2, true, s2.stop)
      else
        let c := s.counter + 1
        let s2 := { s with counter := c,
                           stop := if patience ≤ c then true else s.stop }
        (s2, false, s2.stop)

/-- Running `EarlyStopping.__call__` over a whole list of validation scores,
starting from the freshly initialized object. -/
def esRun (patience : ℕ) (mode : String) (scores : List ℚ) : ESState :=
  scores.foldl (fun s x => (esCall patience mode s x).1) esInit

/-- Spec-side bookkeeping for claim C4: given the current best score and the
current count of non-improving calls, process a list of scores, resetting the
count to 0 on an improvement and incrementing it otherwise.  The first call
(no best score yet) does not touch the count. -/
def streakState (mode : String) : Option ℚ × ℕ → List ℚ → Option ℚ × ℕ
  | p, [] => p
  | (none, c), x :: xs => streakState mode (some x, c) xs
  | (some b, c), x :: xs =>
      if isImprovement mode b x then streakState mode (some x, 0) xs
      else streakState mode (some b, c + 1) xs

/-- The count of non-improving calls since the last improvement (or since the
first call if no improvement ever occurred), after a list of calls. -/
def nonImprovStreak (mode : String) (scores : List ℚ) : ℕ :=
  (streakState mode (none, 0) scores).2

/- ### Helper lemmas about the EarlyStopping state machine -/

lemma streakState_append (mode : String) (p : Option ℚ × ℕ)
    (l l2 : List ℚ) :
    streakState mode p (l ++ l2) = streakState mode (streakState mode p l) l2 := by
  induction l generalizing p with
  | nil =>
      obtain ⟨ob, c⟩ := p
      cases ob <;> rfl
  | cons x xs ih =>
      obtain ⟨ob, c⟩ := p
      cases ob with
      | none => simpa [streakState] using ih (some x, c)
      | some b =>
          by_cases h : isImprovement mode b x = true
          · simpa [streakState, h] using ih (some x, 0)
          · simp only [streakState, List.cons_append]
            rw [if_neg (by simpa using h), if_neg (by simpa using h)]
            exact ih (some b, c + 1)

lemma esRun_foldl_streak (patience : ℕ) (mode : String) (scores : List ℚ)
    (s : ESState) :
    ((scores.foldl (fun t x => (esCall patience mode t x).1) s).bestScore,
     (scores.foldl (fun t x => (esCall patience mode t x).1) s).counter) =
      streakState mode (s.bestScore, s.counter) scores := by
  induction scores generalizing s with
  | nil => cases hb : s.bestScore <;> simp [streakState, hb]
  | cons x xs ih =>
      cases hb : s.bestScore with
      | none =>
          simp only [List.foldl_cons]
          rw [ih]
          simp [esCall, hb, streakState]
      | some b =>
          by_cases h : isImprovement mode b x = true
          · simp only [List.foldl_cons]
            rw [ih]
            simp [esCall, hb, h, streakState]
          · simp only [List.foldl_cons]
            rw [ih]
            simp only [esCall, hb]
            rw [if_neg (by simpa using h)]
            simp only [streakState]
            rw [if_neg (by simpa using h)]

lemma esRun_streak (patience : ℕ) (mode : String) (scores : List ℚ) :
    ((esRun patience mode scores).bestScore,
     (esRun patience mode scores).counter) =
      streakState mode (none, 0) scores :=
  esRun_foldl_streak patience mode scores esInit

/- ### Claim C2 -/

/-- C2: `EarlyStopping.__call__` saves a checkpoint if and only if the
reported validation score strictly improves on the best score so far
(strictly greater in `"max"` mode, strictly smaller in `"min"` mode); on such
an improvement it updates the best score to the reported score and resets the
patience counter to 0.  On the very first call there is no best score yet and
no checkpoint is written. -/
theorem c2_checkpoint_iff_improvement (patience : ℕ) (mode : String)
    (s : ESState) (score : ℚ) :
    ((esCall patience mode s score).2.1 = true ↔
      ∃ b, s.bestScore = some b ∧ isImprovement mode b score = true) ∧
    (∀ b, mode = "max" →
      (isImprovement mode b score = true ↔ b < score)) ∧
    (∀ b, mode = "min" →
      (isImprovement mode b score = true ↔ score < b)) ∧
    ((esCall patience mode s score).2.1 = true →
      (esCall patience mode s score).1.bestScore = some score ∧
        (esCall patience mode s score).1.counter = 0) := by
  refine ⟨?_, ?_, ?_, ?_⟩
  · constructor
    · intro h
      cases hb : s.bestScore with
      | none => simp [esCall, hb] at h
      | some b =>
          by_cases hi : isImprovement mode b score = true
          · exact ⟨b, rfl, hi⟩
          · simp only [esCall, hb] at h
            rw [if_neg (by simpa using hi)] at h
            simp at h
    · rintro ⟨b, hb, hi⟩
      simp [esCall, hb, hi]
  · intro b hmode
    simp [isImprovement, hmode]
  · intro b hmode
    simp [isImprovement, hmode]
  · intro h
    cases hb : s.bestScore with
    | none => simp [esCall, hb] at h
    | some b =>
        by_cases hi : isImprovement mode b score = true
        · simp [esCall, hb, hi]
        · simp only [esCall, hb] at h
          rw [if_neg (by simpa using hi)] at h
          simp at h

/-- Witness for C2 at a concrete input: state with best score 2 in `"max"`
mode and an improving score 3. -/
theorem c2_checkpoint_iff_improvement_witness :
    ((esCall 50 "max" { bestScore := some 2, counter := 4, stop := false } 3).2.1 = true ↔
      ∃ b, (ESState.bestScore { bestScore := some 2, counter := 4, stop := false }) = some b ∧
        isImprovement "max" b 3 = true) ∧
    (∀ b, "max" = "max" →
      (isImprovement "max" b (3 : ℚ) = true ↔ b < 3)) ∧
    (∀ b, "max" = "min" →
      (isImprovement "max" b (3 : ℚ) = true ↔ (3 : ℚ) < b)) ∧
    ((esCall 50 "max" { bestScore := some 2, counter := 4, stop := false } 3).2.1 = true →
      (esCall 50 "max" { bestScore := some 2, counter := 4, stop := false } 3).1.bestScore = some 3 ∧
        (esCall 50 "max" { bestScore := some 2, counter := 4, stop := false } 3).1.counter = 0) :=
  c2_checkpoint_iff_improvement 50 "max"
    { bestScore := some 2, counter := 4, stop := false } 3

/- ### Claim C10 -/

/-- C10: once the `_stop` flag is set, every subsequent call of
`EarlyStopping.__call__` returns `True` regardless of its arguments, and the
flag stays set; a later improving score still saves a checkpoint and resets
the counter, but the call still returns `True`. -/
theorem c10_stop_is_latched (patience : ℕ) (mode : String) (s : ESState)
    (score : ℚ) (h : s.stop = true) :
    (esCall patience mode s score).2.2 = true ∧
    (esCall patience mode s score).1.stop = true ∧
    (∀ b, s.bestScore = some b → isImprovement mode b score = true →
      (esCall patience mode s score).2.1 = true ∧
        (esCall patience mode s score).1.counter = 0) := by
  refine ⟨?_, ?_, ?_⟩
  · cases hb : s.bestScore with
    | none => simp [esCall, hb, h]
    | some b =>
        by_cases hi : isImprovement mode b score = true
        · simp [esCall, hb, hi, h]
        · simp only [esCall, hb]
          rw [if_neg (by simpa using hi)]
          simp [h]
  · cases hb : s.bestScore with
    | none => simp [esCall, hb, h]
    | some b =>
        by_cases hi : isImprovement mode b score = true
        · simp [esCall, hb, hi, h]
        · simp only [esCall, hb]
          rw [if_neg (by simpa using hi)]
          simp [h]
  · intro b hb hi
    simp [esCall, hb, hi]

/-- Witness for C10: a stopped state in `"max"` mode receiving an improving
score still returns `True`, still saves, and resets the counter. -/
theorem c10_stop_is_latched_witness :
    (esCall 2 "max" { bestScore := some 1, counter := 2, stop := true } 5).2.2 = true ∧
    (esCall 2 "max" { bestScore := some 1, counter := 2, stop := true } 5).1.stop = true ∧
    (∀ b, (ESState.bestScore { bestScore := some 1, counter := 2, stop := true }) = some b →
      isImprovement "max" b 5 = true →
      (esCall 2 "max" { bestScore := some 1, counter := 2, stop := true } 5).2.1 = true ∧
        (esCall 2 "max" { bestScore := some 1, counter := 2, stop := true } 5).1.counter = 0) :=
  c10_stop_is_latched 2 "max" { bestScore := some 1, counter := 2, stop := true } 5 rfl

/- ### Claim C4 -/

/-- C4 counterexample: with patience 1 in `"max"` mode, after the scores
5 and 4 the stop flag is set; the next call with the improving score 6 saves
a checkpoint and resets the counter, so the count of non-improving calls
since the last improvement is 0, strictly below the patience 1 — and yet the
call returns `True`.  This refutes "returns True exactly when the count of
non-improving calls since the last improvement reaches the configured
patience". -/
theorem c4_counterexample :
    (esCall 1 "max" (esRun 1 "max" [5, 4]) 6).2.1 = true ∧
    (esCall 1 "max" (esRun 1 "max" [5, 4]) 6).1.counter = 0 ∧
    nonImprovStreak "max" ([5, 4] ++ [6]) = 0 ∧
    ¬ (1 : ℕ) ≤ nonImprovStreak "max" ([5, 4] ++ [6]) ∧
    (esCall 1 "max" (esRun 1 "max" [5, 4]) 6).2.2 = true := by
  decide

/-- C4 (amended): on every non-improving call after the first,
`EarlyStopping.__call__` increments the patience counter by exactly 1, and it
returns `True` exactly when the `_stop` flag was already set by an earlier
call, or the call is non-improving and the count of non-improving calls since
the last improvement (or since the first call if no improvement ever
occurred) reaches the configured patience. -/
theorem c4_amended_stop_characterization (patience : ℕ) (mode : String)
    (scores : List ℚ) (x : ℚ) :
    (∀ b, (esRun patience mode scores).bestScore = some b →
      isImprovement mode b x = false →
      (esCall patience mode (esRun patience mode scores) x).1.counter =
        (esRun patience mode scores).counter + 1) ∧
    ((esCall patience mode (esRun patience mode scores) x).2.2 = true ↔
      ((esRun patience mode scores).stop = true ∨
        (patience ≤ nonImprovStreak mode (scores ++ [x]) ∧
          ∃ b, (esRun patience mode scores).bestScore = some b ∧
            isImprovement mode b x = false))) := by
  have hstreak : nonImprovStreak mode (scores ++ [x]) =
      (streakState mode ((esRun patience mode scores).bestScore,
        (esRun patience mode scores).counter) [x]).2 := by
    unfold nonImprovStreak
    rw [streakState_append, ← esRun_streak patience mode scores]
  constructor
  · intro b hb hi
    simp only [esCall, hb]
    rw [if_neg (by simpa using hi)]
  · cases hb : (esRun patience mode scores).bestScore with
    | none =>
        simp only [esCall, hb]
        simp [hb]
    | some b =>
        by_cases hi : isImprovement mode b x = true
        · simp only [esCall, hb, hi, if_true]
          constructor
          · intro h
            exact Or.inl h
          · rintro (h | ⟨hp, b2, hb2, hi2⟩)
            · exact h
            · injection hb2 with hbb
              rw [← hbb] at hi2
              rw [hi] at hi2
              exact absurd hi2 (by simp)
        · rw [hb] at hstreak
          simp only [streakState] at hstreak
          rw [if_neg (by simpa using hi)] at hstreak
          simp only [streakState] at hstreak
          simp only [esCall, hb]
          rw [if_neg (by simpa using hi)]
          simp only [hstreak]
          by_cases hp : patience ≤ (esRun patience mode scores).counter + 1
          · simp only [if_pos hp]
            constructor
            · intro _
              exact Or.inr ⟨hp, b, rfl, by simpa using hi⟩
            · intro _
              trivial
          · simp only [if_neg hp]
            constructor
            · intro h
              exact Or.inl h
            · rintro (h | ⟨hp2, _, _, _⟩)
              · exact h
              · exact absurd hp2 hp

/-- Witness for the amended C4 at a concrete input: patience 1, `"max"`
mode, previous scores 5 and 4, next score 3 (a non-improving call). -/
theorem c4_amended_stop_characterization_witness :
    (∀ b, (esRun 1 "max" [5, 4]).bestScore = some b →
      isImprovement "max" b 3 = false →
      (esCall 1 "max" (esRun 1 "max" [5, 4]) 3).1.counter =
        (esRun 1 "max" [5, 4]).counter + 1) ∧
    ((esCall 1 "max" (esRun 1 "max" [5, 4]) 3).2.2 = true ↔
      ((esRun 1 "max" [5, 4]).stop = true ∨
        (1 ≤ nonImprovStreak "max" ([5, 4] ++ [3]) ∧
          ∃ b, (esRun 1 "max" [5, 4]).bestScore = some b ∧
            isImprovement "max" b 3 = false))) :=
  c4_amended_stop_characterization 1 "max" [5, 4] 3

/- ### ImageCaptionDataset and the data loaders (src/finetuning.py lines 21-67 and 131-151) -/

/-- An image value: `Image.open(path).convert("RGB")` produces `rgb path`;
the external `ImageAugmenter` collaborator is modelled as the abstract
constructor `augmented`. -/
inductive ImageData where
  | rgb (path : String)
  | augmented (img : ImageData)
deriving DecidableEq, Repr

/-- A caption value: the parsed caption string, with the external
`TextAugmenter` collaborator modelled as the abstract constructor
`augmented`. -/
inductive TextData where
  | caption (s : String)
  | augmented (t : TextData)
deriving DecidableEq, Repr

/-- The `ImageCaptionDataset` object: its `mode` attribute, its images
directory and its list of (image file name, caption) pairs. -/
structure ImageCaptionDataset where
  mode : String
  imagesDir : String
  pairs : List (String × String)
deriving DecidableEq, Repr

/-- `ImageCaptionDataset.__init__` sets `self.mode = "train"`. -/
def ImageCaptionDataset.init (imagesDir : String)
    (pairs : List (String × String)) : ImageCaptionDataset :=
  { mode := "train", imagesDir := imagesDir, pairs := pairs }

/-- `ImageCaptionDataset.__getitem__`: look up the (file name, caption) pair,
load the named image file and convert it to RGB, and augment both the image
and the text exactly when `self.mode == "train"`.  An out-of-range index
(an uncaught `IndexError` in Python) yields `none`. -/
def ImageCaptionDataset.getitem (d : ImageCaptionDataset) (idx : ℕ) :
    Option (ImageData × TextData) :=
  (d.pairs[idx]?).map fun p =>
    let image := ImageData.rgb (d.imagesDir ++ "/" ++ p.1)
    if d.mode = "train" then
      (ImageData.augmented image, TextData.augmented (TextData.caption p.2))
    else
      (image, TextData.caption p.2)

/-- The object graph after `CLIPFinetuner._get_data_loaders`: the wrapped
dataset, the index lists of the two `torch.utils.data.Subset` objects
produced by `random_split`, and the `mode` attributes assigned on the two
`Subset` objects themselves (Python attribute assignment on a `Subset` does
not touch the wrapped dataset, so `base` keeps its own `mode` field). -/
structure SplitState where
  base : ImageCaptionDataset
  trainIndices : List ℕ
  valIndices : List ℕ
  trainSubsetMode : Option String
  valSubsetMode : Option String
deriving DecidableEq, Repr

/-- `CLIPFinetuner._get_data_loaders`: `train_size = int((1 - val_split) *
len(dataset))` and `random_split` partitioning a permutation `perm` of the
indices (the randomness of `random_split` is the choice of `perm`) into the
first `train_size` and the remaining indices; then `train_dataset.mode =
"train"` and `val_dataset.mode = "val"` are set on the `Subset` objects. -/
def getDataLoadersState (d : ImageCaptionDataset) (perm : List ℕ)
    (valSplit : ℚ) : SplitState :=
  let trainSize : ℕ := (⌊(1 - valSplit) * (d.pairs.length : ℚ)⌋).toNat
  { base := d
    trainIndices := perm.take trainSize
    valIndices := perm.drop trainSize
    trainSubsetMode := some "train"
    valSubsetMode := some "val" }

/-- `torch.utils.data.Subset.__getitem__`: delegate to the wrapped dataset at
the stored index. -/
def subsetGetitem (base : ImageCaptionDataset) (indices : List ℕ) (i : ℕ) :
    Option (ImageData × TextData) :=
  (indices[i]?).bind fun j => base.getitem j

/- ### Claim C3 -/

/-- C3: assigning `mode` on the `Subset` objects returned by
`_get_data_loaders` leaves the wrapped `ImageCaptionDataset`'s `mode` field
unchanged at `"train"` (as set in `__init__`), so `__getitem__` applies image
and text augmentation to items fetched through the validation loader as
well. -/
theorem c3_val_items_still_augmented (imagesDir : String)
    (pairs : List (String × String)) (perm : List ℕ) (valSplit : ℚ)
    (i j : ℕ) (name cap : String)
    (hidx : (getDataLoadersState (ImageCaptionDataset.init imagesDir pairs)
      perm valSplit).valIndices[i]? = some j)
    (hpair : pairs[j]? = some (name, cap)) :
    (getDataLoadersState (ImageCaptionDataset.init imagesDir pairs)
        perm valSplit).base.mode = "train" ∧
    (getDataLoadersState (ImageCaptionDataset.init imagesDir pairs)
        perm valSplit).valSubsetMode = some "val" ∧
    subsetGetitem
        (getDataLoadersState (ImageCaptionDataset.init imagesDir pairs)
          perm valSplit).base
        (getDataLoadersState (ImageCaptionDataset.init imagesDir pairs)
          perm valSplit).valIndices i =
      some (ImageData.augmented (ImageData.rgb (imagesDir ++ "/" ++ name)),
            TextData.augmented (TextData.caption cap)) := by
  refine ⟨rfl, rfl, ?_⟩
  simp only [subsetGetitem, hidx, Option.bind_eq_bind, Option.some_bind]
  simp [ImageCaptionDataset.getitem, ImageCaptionDataset.init,
    getDataLoadersState, hpair]

/-- Witness for C3: a two-element dataset split in half; the single
validation item comes back augmented even though the validation `Subset`'s
`mode` attribute is `"val"`. -/
theorem c3_val_items_still_augmented_witness :
    (getDataLoadersState
        (ImageCaptionDataset.init "data/images" [("a.jpg", "cap a"), ("b.jpg", "cap b")])
        [1, 0] (1/2)).base.mode = "train" ∧
    (getDataLoadersState
        (ImageCaptionDataset.init "data/images" [("a.jpg", "cap a"), ("b.jpg", "cap b")])
        [1, 0] (1/2)).valSubsetMode = some "val" ∧
    subsetGetitem
        (getDataLoadersState
          (ImageCaptionDataset.init "data/images" [("a.jpg", "cap a"), ("b.jpg", "cap b")])
          [1, 0] (1/2)).base
        (getDataLoadersState
          (ImageCaptionDataset.init "data/images" [("a.jpg", "cap a"), ("b.jpg", "cap b")])
          [1, 0] (1/2)).valIndices 0 =
      some (ImageData.augmented (ImageData.rgb ("data/images" ++ "/" ++ "a.jpg")),
            TextData.augmented (TextData.caption "cap a")) :=
  c3_val_items_still_augmented "data/images" [("a.jpg", "cap a"), ("b.jpg", "cap b")]
    [1, 0] (1/2) 0 0 "a.jpg" "cap a"
    (by norm_num [getDataLoadersState, ImageCaptionDataset.init]) (by decide)

/- ### Claim C6 -/

/-- C6: for every valid index, `ImageCaptionDataset.__getitem__` loads the
image file named in that index's caption record, converts it to RGB, and
applies image and text augmentation if and only if the dataset's `mode`
equals `"train"`; when the mode is not `"train"` the RGB image and the
parsed caption are returned unmodified. -/
theorem c6_getitem_augments_iff_train_mode (d : ImageCaptionDataset)
    (idx : ℕ) (name cap : String) (h : d.pairs[idx]? = some (name, cap)) :
    (d.mode = "train" →
      d.getitem idx =
        some (ImageData.augmented (ImageData.rgb (d.imagesDir ++ "/" ++ name)),
              TextData.augmented (TextData.caption cap))) ∧
    (d.mode ≠ "train" →
      d.getitem idx =
        some (ImageData.rgb (d.imagesDir ++ "/" ++ name),
              TextData.caption cap)) := by
  constructor
  · intro hm
    simp [ImageCaptionDataset.getitem, h, hm]
  · intro hm
    simp [ImageCaptionDataset.getitem, h, hm]

/-- Witness for C6 at a concrete input: a dataset whose `mode` is `"val"`
returns the plain RGB image and the parsed caption. -/
theorem c6_getitem_augments_iff_train_mode_witness :
    ((ImageCaptionDataset.mode
        { mode := "val", imagesDir := "d", pairs := [("x.jpg", "a cat")] }) = "train" →
      ImageCaptionDataset.getitem
          { mode := "val", imagesDir := "d", pairs := [("x.jpg", "a cat")] } 0 =
        some (ImageData.augmented (ImageData.rgb ("d" ++ "/" ++ "x.jpg")),
              TextData.augmented (TextData.caption "a cat"))) ∧
    ((ImageCaptionDataset.mode
        { mode := "val", imagesDir := "d", pairs := [("x.jpg", "a cat")] }) ≠ "train" →
      ImageCaptionDataset.getitem
          { mode := "val", imagesDir := "d", pairs := [("x.jpg", "a cat")] } 0 =
        some (ImageData.rgb ("d" ++ "/" ++ "x.jpg"), TextData.caption "a cat")) :=
  c6_getitem_augments_iff_train_mode
    { mode := "val", imagesDir := "d", pairs := [("x.jpg", "a cat")] }
    0 "x.jpg" "a cat" (by decide)

/- ### Parameter freezing and the unfreezing schedule
(src/finetuning.py lines 73-92, 104-129, 153-204) -/

/-- The `requires_grad` flags of the model's parameters.  The model has two
towers whose transformer blocks are indexed `0, ..., tot_blocks - 1` (all
parameters of one block are frozen or unfrozen together, since the code
iterates over all of them); `visualProj` and `textProj` are
`model.visual.proj` and `model.text_projection`; every remaining parameter
(embeddings, layer norms, the patch convolution, `logit_scale`, ...) is one
slot of the family `otherParam`. -/
structure ModelParams where
  visualProj : Bool
  textProj : Bool
  visualBlock : ℕ → Bool
  textBlock : ℕ → Bool
  otherParam : ℕ → Bool

/-- `CLIPFinetuner._freeze_model`: set `requires_grad` of every parameter to
`False`. -/
def freezeModel (_s : ModelParams) : ModelParams :=
  { visualProj := false
    textProj := false
    visualBlock := fun _ => false
    textBlock := fun _ => false
    otherParam := fun _ => false }

/-- `CLIPFinetuner._unfreeze_blocks`: make the two projections trainable,
clamp the requested count to `tot` blocks, and make every parameter of the
last `clamped` blocks of both towers trainable (`range(tot - clamped, tot)`).
Parameters outside that range keep their flags. -/
def unfreezeBlocks (tot : ℕ) (blocksToUnfreeze : ℕ) (s : ModelParams) :
    ModelParams :=
  let n := if tot < blocksToUnfreeze then tot else blocksToUnfreeze
  { s with
    visualProj := true
    textProj := true
    visualBlock := fun i =>
      if tot - n ≤ i ∧ i < tot then true else s.visualBlock i
    textBlock := fun i =>
      if tot - n ≤ i ∧ i < tot then true else s.textBlock i }

/-- `CLIPFinetuner._partial_unfreeze` at a (0-based) `epoch` of `fit`: with
`e1 = epoch + 1`, if `e1 >= unfreeze_from` and `e1 % unfreeze_every == 0`,
compute `blocks_to_unfreeze = (e1 - unfreeze_from + unfreeze_every) //
unfreeze_every + 1` and, when it does not exceed the block count, unfreeze
that many trailing blocks. -/
def partialUnfreeze (ufrom uevery tot : ℕ) (epoch : ℕ) (s : ModelParams) :
    ModelParams :=
  let e1 := epoch + 1
  if ufrom ≤ e1 ∧ e1 % uevery = 0 then
    let btu := (e1 - ufrom + uevery) / uevery + 1
    if btu ≤ tot then unfreezeBlocks tot btu s else s
  else s

/-- The parameter flags right after `CLIPFinetuner.__init__`:
`_freeze_model()` followed by `_unfreeze_blocks(1)`. -/
def initParams (tot : ℕ) (s : ModelParams) : ModelParams :=
  unfreezeBlocks tot 1 (freezeModel s)

/-- The parameter flags after the first `e` epochs of `CLIPFinetuner.fit`
(each epoch `0, ..., e-1` runs `_partial_unfreeze(epoch)` first; nothing else
in the loop touches `requires_grad`). -/
def fitParams (ufrom uevery tot : ℕ) (s : ModelParams) : ℕ → ModelParams
  | 0 => initParams tot s
  | e + 1 => partialUnfreeze ufrom uevery tot e (fitParams ufrom uevery tot s e)

/-- The number of 1-based epochs `e1 <= e` at which the schedule condition
`e1 >= unfreeze_from` and `e1 % unfreeze_every == 0` holds. -/
def tcount (ufrom uevery : ℕ) : ℕ → ℕ
  | 0 => 0
  | e + 1 =>
      tcount ufrom uevery e +
        (if ufrom ≤ e + 1 ∧ (e + 1) % uevery = 0 then 1 else 0)

/-- Canonical flag state: both projections trainable, exactly the last `m`
blocks (clamped to `tot`) of both towers trainable, everything else
frozen. -/
def canonParams (tot m : ℕ) : ModelParams :=
  { visualProj := true
    textProj := true
    visualBlock := fun i => decide (tot - m ≤ i ∧ i < tot)
    textBlock := fun i => decide (tot - m ≤ i ∧ i < tot)
    otherParam := fun _ => false }

/-- The number of unfrozen transformer blocks of the visual tower. -/
def unfrozenBlockCount (tot : ℕ) (s : ModelParams) : ℕ :=
  ((Finset.range tot).filter (fun i => s.visualBlock i = true)).card

/-- Pointwise ordering of flag states: every parameter trainable in `s` is
trainable in `t`. -/
def ParamLe (s t : ModelParams) : Prop :=
  (s.visualProj = true → t.visualProj = true) ∧
  (s.textProj = true → t.textProj = true) ∧
  (∀ i, s.visualBlock i = true → t.visualBlock i = true) ∧
  (∀ i, s.textBlock i = true → t.textBlock i = true) ∧
  (∀ j, s.otherParam j = true → t.otherParam j = true)

lemma paramLe_refl (s : ModelParams) : ParamLe s s :=
  ⟨fun h => h, fun h => h, fun _ h => h, fun _ h => h, fun _ h => h⟩

lemma paramLe_trans {s t u : ModelParams} (h1 : ParamLe s t)
    (h2 : ParamLe t u) : ParamLe s u := by
  obtain ⟨a1, b1, c1, d1, e1⟩ := h1
  obtain ⟨a2, b2, c2, d2, e2⟩ := h2
  exact ⟨fun h => a2 (a1 h), fun h => b2 (b1 h),
    fun i h => c2 i (c1 i h), fun i h => d2 i (d1 i h),
    fun j h => e2 j (e1 j h)⟩

lemma unfreezeBlocks_mono (tot n : ℕ) (s : ModelParams) :
    ParamLe s (unfreezeBlocks tot n s) := by
  refine ⟨fun _ => rfl, fun _ => rfl, ?_, ?_, fun _ h => h⟩
  · intro i h
    simp only [unfreezeBlocks]
    by_cases hc : tot - (if tot < n then tot else n) ≤ i ∧ i < tot <;>
      simp [hc, h]
  · intro i h
    simp only [unfreezeBlocks]
    by_cases hc : tot - (if tot < n then tot else n) ≤ i ∧ i < tot <;>
      simp [hc, h]

lemma partialUnfreeze_mono (ufrom uevery tot ep : ℕ) (s : ModelParams) :
    ParamLe s (partialUnfreeze ufrom uevery tot ep s) := by
  unfold partialUnfreeze
  by_cases h1 : ufrom ≤ ep + 1 ∧ (ep + 1) % uevery = 0
  · simp only [if_pos h1]
    by_cases h2 : (ep + 1 - ufrom + uevery) / uevery + 1 ≤ tot
    · simp only [if_pos h2]
      exact unfreezeBlocks_mono tot _ s
    · simp only [if_neg h2]
      exact paramLe_refl s
  · simp only [if_neg h1]
    exact paramLe_refl s

lemma unfreezeBlocks_canon (tot n m : ℕ) :
    unfreezeBlocks tot n (canonParams tot m) =
      canonParams tot (max m (min n tot)) := by
  have hmin : (if tot < n then tot else n) = min n tot := by
    split <;> omega
  unfold unfreezeBlocks canonParams
  simp only [hmin]
  refine congrArg₂ (fun f g => ModelParams.mk true true f g (fun _ => false))
    ?_ ?_ <;>
  · funext i
    by_cases h1 : tot - min n tot ≤ i ∧ i < tot
    · rw [if_pos h1]
      symm
      rw [decide_eq_true_eq]
      omega
    · rw [if_neg h1]
      rw [decide_eq_decide]
      omega

lemma initParams_canon (tot : ℕ) (s : ModelParams) :
    initParams tot s = canonParams tot (min tot 1) := by
  have hmin : (if tot < 1 then tot else 1) = min 1 tot := by
    split <;> omega
  unfold initParams unfreezeBlocks freezeModel canonParams
  simp only [hmin]
  refine congrArg₂ (fun f g => ModelParams.mk true true f g (fun _ => false))
    ?_ ?_ <;>
  · funext i
    by_cases h1 : tot - min 1 tot ≤ i ∧ i < tot
    · rw [if_pos h1]
      symm
      rw [decide_eq_true_eq]
      omega
    · rw [if_neg h1]
      symm
      rw [decide_eq_false_iff_not]
      omega

lemma tcount_of_lt (ufrom uevery e : ℕ) (h : e < ufrom) :
    tcount ufrom uevery e = 0 := by
  induction e with
  | zero => rfl
  | succ k ih =>
      simp only [tcount]
      rw [if_neg (by omega), ih (by omega)]

lemma tcount_stable (ufrom v e : ℕ) (hmod : e % (v + 1) = 0) :
    ∀ j, j < v + 1 → tcount ufrom (v + 1) (e + j) = tcount ufrom (v + 1) e := by
  intro j hj
  induction j with
  | zero => rfl
  | succ k ih =>
      obtain ⟨t, ht⟩ : (v + 1) ∣ e := Nat.dvd_iff_mod_eq_zero.mpr hmod
      have hmodk : (e + (k + 1)) % (v + 1) = k + 1 := by
        rw [ht, Nat.mul_add_mod]
        exact Nat.mod_eq_of_lt hj
      have hstep : tcount ufrom (v + 1) (e + k + 1) =
          tcount ufrom (v + 1) (e + k) +
            (if ufrom ≤ e + k + 1 ∧ (e + k + 1) % (v + 1) = 0 then 1 else 0) := rfl
      have hne : ¬ (ufrom ≤ e + k + 1 ∧ (e + k + 1) % (v + 1) = 0) := by
        intro hc
        rw [show e + k + 1 = e + (k + 1) from rfl, hmodk] at hc
        omega
      rw [show e + (k + 1) = e + k + 1 from rfl, hstep, if_neg hne,
        ih (by omega)]
      omega

lemma tcount_add_period (ufrom v e : ℕ) (hmod : e % (v + 1) = 0) :
    tcount ufrom (v + 1) (e + (v + 1)) =
      tcount ufrom (v + 1) e + (if ufrom ≤ e + (v + 1) then 1 else 0) := by
  have hstep : tcount ufrom (v + 1) (e + v + 1) =
      tcount ufrom (v + 1) (e + v) +
        (if ufrom ≤ e + v + 1 ∧ (e + v + 1) % (v + 1) = 0 then 1 else 0) := rfl
  have hmodv : (e + v + 1) % (v + 1) = 0 := by
    rw [show e + v + 1 = e + (v + 1) from rfl, Nat.add_mod_right, hmod]
  rw [show e + (v + 1) = e + v + 1 from rfl, hstep,
    tcount_stable ufrom v e hmod v (by omega)]
  by_cases hle : ufrom ≤ e + v + 1
  · rw [if_pos ⟨hle, hmodv⟩, if_pos hle]
  · rw [if_neg (by intro hc; exact hle hc.1), if_neg hle]

lemma div_eq_tcount (ufrom uevery : ℕ) (hf : 1 ≤ ufrom) (he : 1 ≤ uevery) :
    ∀ e1, ufrom ≤ e1 → e1 % uevery = 0 →
      (e1 - ufrom + uevery) / uevery = tcount ufrom uevery e1 := by
  obtain ⟨v, rfl⟩ : ∃ v, uevery = v + 1 := ⟨uevery - 1, by omega⟩
  intro e1
  induction e1 using Nat.strong_induction_on with
  | _ e1 ih =>
      intro hge hmod
      have hdvd : (v + 1) ∣ e1 := Nat.dvd_iff_mod_eq_zero.mpr hmod
      have he1u : v + 1 ≤ e1 := Nat.le_of_dvd (by omega) hdvd
      have he0mod : (e1 - (v + 1)) % (v + 1) = 0 :=
        Nat.dvd_iff_mod_eq_zero.mp (Nat.dvd_sub' hdvd dvd_rfl)
      have he1e0 : e1 = (e1 - (v + 1)) + (v + 1) := by omega
      rw [he1e0, tcount_add_period ufrom v _ he0mod, if_pos (by omega)]
      by_cases hA : ufrom ≤ e1 - (v + 1)
      · have ihe0 := ih (e1 - (v + 1)) (by omega) hA he0mod
        have harg : e1 - (v + 1) + (v + 1) - ufrom + (v + 1) =
            (e1 - (v + 1) - ufrom + (v + 1)) + (v + 1) := by omega
        rw [harg, Nat.add_div_right _ (by omega), ihe0]
      · have harg : e1 - (v + 1) + (v + 1) - ufrom + (v + 1) =
            (e1 - ufrom) + (v + 1) := by omega
        rw [harg, Nat.add_div_right _ (by omega),
          Nat.div_eq_of_lt (by omega), tcount_of_lt ufrom (v + 1) _ (by omega)]

lemma fitParams_canon (ufrom uevery tot : ℕ) (hf : 1 ≤ ufrom)
    (he : 1 ≤ uevery) (s : ModelParams) (e : ℕ) :
    fitParams ufrom uevery tot s e =
      canonParams tot (min tot (1 + tcount ufrom uevery e)) := by
  induction e with
  | zero =>
      have h0 : min tot (1 + tcount ufrom uevery 0) = min tot 1 := by
        simp [tcount]
      rw [h0]
      exact initParams_canon tot s
  | succ k ih =>
      have hunf : fitParams ufrom uevery tot s (k + 1) =
          partialUnfreeze ufrom uevery tot k (fitParams ufrom uevery tot s k) := rfl
      rw [hunf, ih]
      unfold partialUnfreeze
      by_cases h1 : ufrom ≤ k + 1 ∧ (k + 1) % uevery = 0
      · rw [if_pos h1]
        have hbtu : (k + 1 - ufrom + uevery) / uevery =
            tcount ufrom uevery (k + 1) :=
          div_eq_tcount ufrom uevery hf he (k + 1) h1.1 h1.2
        have htc : tcount ufrom uevery (k + 1) = tcount ufrom uevery k + 1 := by
          have : tcount ufrom uevery (k + 1) =
              tcount ufrom uevery k +
                (if ufrom ≤ k + 1 ∧ (k + 1) % uevery = 0 then 1 else 0) := rfl
          rw [this, if_pos h1]
        by_cases h2 : (k + 1 - ufrom + uevery) / uevery + 1 ≤ tot
        · rw [if_pos h2, unfreezeBlocks_canon]
          rw [hbtu, htc] at h2 ⊢
          have : max (min tot (1 + tcount ufrom uevery k))
              (min (tcount ufrom uevery k + 1 + 1) tot) =
              min tot (1 + (tcount ufrom uevery k + 1)) := by omega
          rw [this]
        · rw [if_neg h2]
          rw [hbtu, htc] at h2
          have : min tot (1 + tcount ufrom uevery k) =
              min tot (1 + (tcount ufrom uevery k + 1)) := by omega
          rw [this, htc]
      · rw [if_neg h1]
        have htc : tcount ufrom uevery (k + 1) = tcount ufrom uevery k := by
          have : tcount ufrom uevery (k + 1) =
              tcount ufrom uevery k +
                (if ufrom ≤ k + 1 ∧ (k + 1) % uevery = 0 then 1 else 0) := rfl
          rw [this, if_neg h1]
          omega
        rw [htc]

lemma card_filter_range_ge (t a : ℕ) :
    ((Finset.range t).filter (fun i => a ≤ i)).card = t - a := by
  induction t with
  | zero => simp
  | succ k ih =>
      rw [Finset.range_succ, Finset.filter_insert]
      by_cases h : a ≤ k
      · rw [if_pos h, Finset.card_insert_of_not_mem (by simp), ih]
        omega
      · rw [if_neg h, ih]
        omega

lemma unfrozenBlockCount_canon (tot m : ℕ) :
    unfrozenBlockCount tot (canonParams tot m) = min tot m := by
  unfold unfrozenBlockCount canonParams
  have hcong : ∀ i ∈ Finset.range tot,
      ((decide (tot - m ≤ i ∧ i < tot) = true) ↔ (tot - m ≤ i)) := by
    intro i hi
    rw [Finset.mem_range] at hi
    simp [hi]
  rw [Finset.filter_congr hcong, card_filter_range_ge]
  omega

/- ### Claim C5 -/

/-- C5: `CLIPFinetuner.__init__` first freezes every parameter and then makes
trainable exactly the final image projection, the final text projection and
the last `n` transformer blocks of each of the two towers (`n` clamped to the
block count); every other parameter has `requires_grad` `False` afterwards.
`__init__` invokes `_unfreeze_blocks` with `n = 1`, which is the `initParams`
instance recorded in the first conjunct. -/
theorem c5_trainable_set_after_init (tot n : ℕ) (s : ModelParams) :
    initParams tot s = unfreezeBlocks tot 1 (freezeModel s) ∧
    (unfreezeBlocks tot n (freezeModel s)).visualProj = true ∧
    (unfreezeBlocks tot n (freezeModel s)).textProj = true ∧
    (∀ i, (unfreezeBlocks tot n (freezeModel s)).visualBlock i = true ↔
      (tot - min n tot ≤ i ∧ i < tot)) ∧
    (∀ i, (unfreezeBlocks tot n (freezeModel s)).textBlock i = true ↔
      (tot - min n tot ≤ i ∧ i < tot)) ∧
    (∀ j, (unfreezeBlocks tot n (freezeModel s)).otherParam j = false) := by
  have hmin : (if tot < n then tot else n) = min n tot := by
    split <;> omega
  refine ⟨rfl, rfl, rfl, ?_, ?_, fun _ => rfl⟩
  · intro i
    simp only [unfreezeBlocks, freezeModel, hmin]
    by_cases hc : tot - min n tot ≤ i ∧ i < tot <;> simp [hc]
  · intro i
    simp only [unfreezeBlocks, freezeModel, hmin]
    by_cases hc : tot - min n tot ≤ i ∧ i < tot <;> simp [hc]

/-- Witness for C5: with 12 blocks and the count 1 used by `__init__`,
block 11 of the visual tower is trainable and block 10 is not, and an
`otherParam` slot stays frozen. -/
theorem c5_trainable_set_after_init_witness :
    initParams 12 (freezeModel (freezeModel
        { visualProj := false, textProj := false,
          visualBlock := fun _ => false, textBlock := fun _ => false,
          otherParam := fun _ => false })) =
      unfreezeBlocks 12 1 (freezeModel (freezeModel
        { visualProj := false, textProj := false,
          visualBlock := fun _ => false, textBlock := fun _ => false,
          otherParam := fun _ => false })) ∧
    (unfreezeBlocks 12 1 (freezeModel (freezeModel
        { visualProj := false, textProj := false,
          visualBlock := fun _ => false, textBlock := fun _ => false,
          otherParam := fun _ => false }))).visualProj = true ∧
    (unfreezeBlocks 12 1 (freezeModel (freezeModel
        { visualProj := false, textProj := false,
          visualBlock := fun _ => false, textBlock := fun _ => false,
          otherParam := fun _ => false }))).textProj = true ∧
    (∀ i, (unfreezeBlocks 12 1 (freezeModel (freezeModel
        { visualProj := false, textProj := false,
          visualBlock := fun _ => false, textBlock := fun _ => false,
          otherParam := fun _ => false }))).visualBlock i = true ↔
      (12 - min 1 12 ≤ i ∧ i < 12)) ∧
    (∀ i, (unfreezeBlocks 12 1 (freezeModel (freezeModel
        { visualProj := false, textProj := false,
          visualBlock := fun _ => false, textBlock := fun _ => false,
          otherParam := fun _ => false }))).textBlock i = true ↔
      (12 - min 1 12 ≤ i ∧ i < 12)) ∧
    (∀ j, (unfreezeBlocks 12 1 (freezeModel (freezeModel
        { visualProj := false, textProj := false,
          visualBlock := fun _ => false, textBlock := fun _ => false,
          otherParam := fun _ => false }))).otherParam j = false) :=
  c5_trainable_set_after_init 12 1 (freezeModel
    { visualProj := false, textProj := false,
      visualBlock := fun _ => false, textBlock := fun _ => false,
      otherParam := fun _ => false })

/- ### Claim C1 -/

/-- A fully frozen parameter state, used as a concrete model state. -/
def allFrozen : ModelParams :=
  { visualProj := false, textProj := false,
    visualBlock := fun _ => false, textBlock := fun _ => false,
    otherParam := fun _ => false }

/-- C1 counterexample: with `unfreeze_from = 7` and `unfreeze_every = 3` on
12 blocks, no additional block is unfrozen at epoch 7 — neither in the code's
1-based epoch numbering (after 7 epochs the count is still the initial 1) nor
in 0-based numbering (after 8 epochs it is still 1); the first additional
block appears only at 1-based epoch 9, the first multiple of
`unfreeze_every` that is `>= unfreeze_from`.  This refutes "unfreezes exactly
one additional transformer block starting from epoch `self._unfreeze_from`".
-/
theorem c1_counterexample :
    unfrozenBlockCount 12 (fitParams 7 3 12 allFrozen 7) = 1 ∧
    unfrozenBlockCount 12 (fitParams 7 3 12 allFrozen 8) = 1 ∧
    unfrozenBlockCount 12 (fitParams 7 3 12 allFrozen 9) = 2 := by
  decide

/-- C1 (amended): for `unfreeze_from >= 1` and `unfreeze_every >= 1`, after
`e` epochs of `fit` the number of unfrozen transformer blocks equals
`min tot (1 + k)` where `k` is the number of 1-based epochs `e1 <= e` with
`e1 >= unfreeze_from` and `e1` divisible by `unfreeze_every`: starting from
the first multiple of `unfreeze_every` that is `>= unfreeze_from` (which is
`unfreeze_from` itself exactly when `unfreeze_every` divides it), each such
epoch unfreezes exactly one additional block, and the number of unfrozen
blocks never exceeds the total block count. -/
theorem c1_amended_schedule (ufrom uevery tot e : ℕ) (s : ModelParams)
    (hf : 1 ≤ ufrom) (he : 1 ≤ uevery) :
    unfrozenBlockCount tot (fitParams ufrom uevery tot s e) =
      min tot (1 + tcount ufrom uevery e) ∧
    unfrozenBlockCount tot (fitParams ufrom uevery tot s e) ≤ tot := by
  rw [fitParams_canon ufrom uevery tot hf he s e, unfrozenBlockCount_canon]
  omega

/-- Witness for the amended C1 at the default configuration (6, 2) with 12
blocks after 10 epochs: the schedule epochs so far are 6, 8 and 10, so 4
blocks are unfrozen. -/
theorem c1_amended_schedule_witness :
    unfrozenBlockCount 12 (fitParams 6 2 12 allFrozen 10) =
      min 12 (1 + tcount 6 2 10) ∧
    unfrozenBlockCount 12 (fitParams 6 2 12 allFrozen 10) ≤ 12 :=
  c1_amended_schedule 6 2 12 10 allFrozen (by decide) (by decide)

/- ### Claim C9 -/

/-- C9: the set of trainable parameters is non-decreasing over the epochs of
`fit`: `_unfreeze_blocks` and `_partial_unfreeze` only ever set
`requires_grad` to `True`, and `_freeze_model` runs only inside `__init__`,
so for epochs `e <= e2` every parameter trainable after `e` epochs is still
trainable after `e2` epochs. -/
theorem c9_trainable_set_monotone (ufrom uevery tot : ℕ) (s : ModelParams)
    (e e2 : ℕ) (h : e ≤ e2) :
    (∀ n t, ParamLe t (unfreezeBlocks tot n t)) ∧
    (∀ ep t, ParamLe t (partialUnfreeze ufrom uevery tot ep t)) ∧
    ParamLe (fitParams ufrom uevery tot s e) (fitParams ufrom uevery tot s e2) := by
  refine ⟨fun n t => unfreezeBlocks_mono tot n t,
    fun ep t => partialUnfreeze_mono ufrom uevery tot ep t, ?_⟩
  induction e2, h using Nat.le_induction with
  | base => exact paramLe_refl _
  | succ k hk ih =>
      exact paramLe_trans ih (partialUnfreeze_mono ufrom uevery tot k _)

/-- Witness for C9 at a concrete input: the default schedule (6, 2), 12
blocks, epochs 2 and 7. -/
theorem c9_trainable_set_monotone_witness :
    (∀ n t, ParamLe t (unfreezeBlocks 12 n t)) ∧
    (∀ ep t, ParamLe t (partialUnfreeze 6 2 12 ep t)) ∧
    ParamLe
      (fitParams 6 2 12
        { visualProj := false, textProj := false,
          visualBlock := fun _ => false, textBlock := fun _ => false,
          otherParam := fun _ => false } 2)
      (fitParams 6 2 12
        { visualProj := false, textProj := false,
          visualBlock := fun _ => false, textBlock := fun _ => false,
          otherParam := fun _ => false } 7) :=
  c9_trainable_set_monotone 6 2 12
    { visualProj := false, textProj := false,
      visualBlock := fun _ => false, textBlock := fun _ => false,
      otherParam := fun _ => false } 2 7 (by decide)

/- ### Training and validation arithmetic (src/finetuning.py lines 206-288) -/

/-- `F.cross_entropy(logits, target)` with the default mean reduction, on `n`
rows of `n` class logits: the mean over rows `i` of
`log (sum_j exp (logits i j)) - logits i (target i)`.  The functions `logF`
and `expF` abstract the floating point `log` and `exp`. -/
def crossEntropy (logF expF : ℚ → ℚ) (n : ℕ) (logits : ℕ → ℕ → ℚ)
    (target : ℕ → ℕ) : ℚ :=
  (∑ i in Finset.range n,
    (logF (∑ j in Finset.range n, expF (logits i j)) - logits i (target i))) / n

/-- One step of the loop of `CLIPFinetuner._train` on one batch: the forward
pass `fwd` yields `logits_per_image` and `logits_per_text`, the ground truth
is `torch.arange(len(images))`, the loss is the mean of the two cross
entropies, and `upd` abstracts `zero_grad()`; `loss.backward()`;
`optimizer.step()`, producing the updated model. -/
def trainStep {M B : Type} (bsize : B → ℕ)
    (fwd : M → B → (ℕ → ℕ → ℚ) × (ℕ → ℕ → ℚ)) (upd : M → ℚ → M)
    (logF expF : ℚ → ℚ) (m : M) (b : B) : M × ℚ :=
  let lp := fwd m b
  let lossImg := crossEntropy logF expF (bsize b) lp.1 (fun i => i)
  let lossTxt := crossEntropy logF expF (bsize b) lp.2 (fun i => i)
  let loss := (lossImg + lossTxt) / 2
  (upd m loss, loss)

/-- `CLIPFinetuner._train`: fold the training steps over the batches,
accumulating `total_loss`, then divide by the number of batches. -/
def trainEpoch {M B : Type} (bsize : B → ℕ)
    (fwd : M → B → (ℕ → ℕ → ℚ) × (ℕ → ℕ → ℚ)) (upd : M → ℚ → M)
    (logF expF : ℚ → ℚ) (m : M) (bs : List B) : M × ℚ :=
  let r := bs.foldl
    (fun (acc : M × ℚ) b =>
      let st := trainStep bsize fwd upd logF expF acc.1 b
      (st.1, acc.2 + st.2)) (m, 0)
  (r.1, r.2 / bs.length)

/-- The list of per-batch losses produced along a training epoch; the model
is updated by the optimizer between batches. -/
def trainLosses {M B : Type} (bsize : B → ℕ)
    (fwd : M → B → (ℕ → ℕ → ℚ) × (ℕ → ℕ → ℚ)) (upd : M → ℚ → M)
    (logF expF : ℚ → ℚ) (m : M) : List B → List ℚ
  | [] => []
  | b :: bs =>
      (trainStep bsize fwd upd logF expF m b).2 ::
        trainLosses bsize fwd upd logF expF
          (trainStep bsize fwd upd logF expF m b).1 bs

/-- The loss computed on one validation batch by `CLIPFinetuner._validate`
(lines 275-280), translated separately from `_train`'s loss. -/
def valBatchLoss {M B : Type} (bsize : B → ℕ)
    (fwd : M → B → (ℕ → ℕ → ℚ) × (ℕ → ℕ → ℚ))
    (logF expF : ℚ → ℚ) (m : M) (b : B) : ℚ :=
  let lp := fwd m b
  let lossImg := crossEntropy logF expF (bsize b) lp.1 (fun i => i)
  let lossTxt := crossEntropy logF expF (bsize b) lp.2 (fun i => i)
  (lossImg + lossTxt) / 2

/-- `CLIPFinetuner._clip_score`: encode both modalities (under
`torch.no_grad`), divide each feature row by its norm (`normF` abstracts the
floating point `tensor.norm(dim=-1)`), and take the mean of the diagonal of
`image_features @ text_features.t()`; `d` is the feature dimension. -/
def clipScore {M B : Type} (bsize : B → ℕ) (encI encT : M → B → ℕ → ℕ → ℚ)
    (normF : (ℕ → ℚ) → ℚ) (d : ℕ) (m : M) (b : B) : ℚ :=
  let imgF := encI m b
  let txtF := encT m b
  let nImg := fun i j => imgF i j / normF (imgF i)
  let nTxt := fun i j => txtF i j / normF (txtF i)
  (∑ i in Finset.range (bsize b),
    (∑ j in Finset.range d, nImg i j * nTxt i j)) / (bsize b)

/-- Modelled from the spec's words for C7: the cosine similarity of two
feature rows is their inner product divided by the product of their norms;
the claimed score is the mean of the diagonal cosine similarities. -/
def cosineSim (normF : (ℕ → ℚ) → ℚ) (d : ℕ) (u v : ℕ → ℚ) : ℚ :=
  (∑ j in Finset.range d, u j * v j) / (normF u * normF v)

/-- `CLIPFinetuner._validate`: under `torch.no_grad`, accumulate the
per-batch loss and CLIP score over the validation batches and divide both by
the number of batches.  It is a pure function of the model: no optimizer
update occurs and the same model is used for every batch. -/
def valEpoch {M B : Type} (bsize : B → ℕ)
    (fwd : M → B → (ℕ → ℕ → ℚ) × (ℕ → ℕ → ℚ))
    (encI encT : M → B → ℕ → ℕ → ℚ) (normF : (ℕ → ℚ) → ℚ)
    (logF expF : ℚ → ℚ) (d : ℕ) (m : M) (bs : List B) : ℚ × ℚ :=
  let r := bs.foldl
    (fun (acc : ℚ × ℚ) b =>
      (acc.1 + valBatchLoss bsize fwd logF expF m b,
       acc.2 + clipScore bsize encI encT normF d m b)) (0, 0)
  (r.1 / bs.length, r.2 / bs.length)

lemma foldl_add_pair {B : Type} (f g : B → ℚ) (bs : List B) (c1 c2 : ℚ) :
    bs.foldl (fun acc b => (acc.1 + f b, acc.2 + g b)) (c1, c2) =
      (c1 + (bs.map f).sum, c2 + (bs.map g).sum) := by
  induction bs generalizing c1 c2 with
  | nil => simp
  | cons b bs ih =>
      simp only [List.foldl_cons, List.map_cons, List.sum_cons]
      rw [ih, add_assoc, add_assoc]

lemma trainLosses_length {M B : Type} (bsize : B → ℕ)
    (fwd : M → B → (ℕ → ℕ → ℚ) × (ℕ → ℕ → ℚ)) (upd : M → ℚ → M)
    (logF expF : ℚ → ℚ) (m : M) (bs : List B) :
    (trainLosses bsize fwd upd logF expF m bs).length = bs.length := by
  induction bs generalizing m with
  | nil => rfl
  | cons b bs ih =>
      simp only [trainLosses, List.length_cons]
      rw [ih]

lemma trainEpoch_foldl_sum {M B : Type} (bsize : B → ℕ)
    (fwd : M → B → (ℕ → ℕ → ℚ) × (ℕ → ℕ → ℚ)) (upd : M → ℚ → M)
    (logF expF : ℚ → ℚ) (bs : List B) (m : M) (c : ℚ) :
    (bs.foldl
      (fun (acc : M × ℚ) b =>
        let st := trainStep bsize fwd upd logF expF acc.1 b
        (st.1, acc.2 + st.2)) (m, c)).2 =
      c + (trainLosses bsize fwd upd logF expF m bs).sum := by
  induction bs generalizing m c with
  | nil => simp [trainLosses]
  | cons b bs ih =>
      simp only [List.foldl_cons, trainLosses, List.sum_cons]
      rw [ih, add_assoc]

/- ### Concrete instantiations used by the C7 and C8 witnesses -/

/-- Concrete batch-size function: every batch has one item. -/
def oneSize : ℕ → ℕ := fun _ => 1

/-- Concrete forward pass producing constant zero logits. -/
def zeroFwd : Unit → ℕ → (ℕ → ℕ → ℚ) × (ℕ → ℕ → ℚ) :=
  fun _ _ => (fun _ _ => 0, fun _ _ => 0)

/-- Concrete optimizer update on the trivial model type. -/
def unitUpd : Unit → ℚ → Unit := fun u _ => u

/-- Concrete encoder producing constant unit features. -/
def oneEnc : Unit → ℕ → ℕ → ℕ → ℚ := fun _ _ _ _ => 1

/-- Concrete norm function. -/
def oneNorm : (ℕ → ℚ) → ℚ := fun _ => 1

/- ### Claim C8 -/

/-- C8: every training step computes the symmetric loss
`(cross_entropy(logits_per_image, g) + cross_entropy(logits_per_text, g)) / 2`
with ground truth `g = [0, ..., B-1]`, after which the optimizer update is
applied to the model with that loss; the reported train loss is the sum of
the per-batch losses (computed on the successively updated models) divided by
the number of training batches. -/
theorem c8_symmetric_train_loss {M B : Type} (bsize : B → ℕ)
    (fwd : M → B → (ℕ → ℕ → ℚ) × (ℕ → ℕ → ℚ)) (upd : M → ℚ → M)
    (logF expF : ℚ → ℚ) (m : M) (bs : List B) (_h : bs ≠ []) :
    (∀ (m2 : M) (b : B), (trainStep bsize fwd upd logF expF m2 b).2 =
      (crossEntropy logF expF (bsize b) (fwd m2 b).1 (fun i => i) +
        crossEntropy logF expF (bsize b) (fwd m2 b).2 (fun i => i)) / 2) ∧
    (∀ (m2 : M) (b : B), (trainStep bsize fwd upd logF expF m2 b).1 =
      upd m2 (trainStep bsize fwd upd logF expF m2 b).2) ∧
    (trainLosses bsize fwd upd logF expF m bs).length = bs.length ∧
    (trainEpoch bsize fwd upd logF expF m bs).2 =
      (trainLosses bsize fwd upd logF expF m bs).sum / bs.length := by
  refine ⟨fun m2 b => rfl, fun m2 b => rfl,
    trainLosses_length bsize fwd upd logF expF m bs, ?_⟩
  show (bs.foldl
      (fun (acc : M × ℚ) b =>
        let st := trainStep bsize fwd upd logF expF acc.1 b
        (st.1, acc.2 + st.2)) (m, 0)).2 / (bs.length : ℚ) =
    (trainLosses bsize fwd upd logF expF m bs).sum / bs.length
  rw [trainEpoch_foldl_sum, zero_add]

/-- Witness for C8 at a concrete input: a one-batch epoch with constant zero
logits over the trivial model type. -/
theorem c8_symmetric_train_loss_witness :
    (∀ (m2 : Unit) (b : ℕ), (trainStep oneSize zeroFwd unitUpd id id m2 b).2 =
      (crossEntropy id id (oneSize b) (zeroFwd m2 b).1 (fun i => i) +
        crossEntropy id id (oneSize b) (zeroFwd m2 b).2 (fun i => i)) / 2) ∧
    (∀ (m2 : Unit) (b : ℕ), (trainStep oneSize zeroFwd unitUpd id id m2 b).1 =
      unitUpd m2 (trainStep oneSize zeroFwd unitUpd id id m2 b).2) ∧
    (trainLosses oneSize zeroFwd unitUpd id id () [0]).length = [0].length ∧
    (trainEpoch oneSize zeroFwd unitUpd id id () [0]).2 =
      (trainLosses oneSize zeroFwd unitUpd id id () [0]).sum / [0].length :=
  c8_symmetric_train_loss oneSize zeroFwd unitUpd id id () [0] (by simp)

/- ### Claim C7 -/

/-- C7: every validation batch computes the same loss expression as a
training batch on the same model — the mean of the two cross entropies of
`logits_per_image` and `logits_per_text` against the diagonal labels — plus a
score that equals the mean of the diagonal cosine similarities of the
L2-normalized image and text features; the reported validation loss and score
are the per-batch values summed and divided by the number of validation
batches.  `_validate` runs under `torch.no_grad` and is embedded as a pure
function of the model: no optimizer update occurs. -/
theorem c7_validation_refines_training {M B : Type} (bsize : B → ℕ)
    (fwd : M → B → (ℕ → ℕ → ℚ) × (ℕ → ℕ → ℚ)) (upd : M → ℚ → M)
    (encI encT : M → B → ℕ → ℕ → ℚ) (normF : (ℕ → ℚ) → ℚ)
    (logF expF : ℚ → ℚ) (d : ℕ) (m : M) (bs : List B) (_h : bs ≠ []) :
    (∀ b : B, valBatchLoss bsize fwd logF expF m b =
      (trainStep bsize fwd upd logF expF m b).2) ∧
    (∀ b : B, clipScore bsize encI encT normF d m b =
      (∑ i in Finset.range (bsize b),
        cosineSim normF d (encI m b i) (encT m b i)) / (bsize b)) ∧
    (valEpoch bsize fwd encI encT normF logF expF d m bs).1 =
      (bs.map (valBatchLoss bsize fwd logF expF m)).sum / bs.length ∧
    (valEpoch bsize fwd encI encT normF logF expF d m bs).2 =
      (bs.map (clipScore bsize encI encT normF d m)).sum / bs.length := by
  refine ⟨fun b => rfl, ?_, ?_, ?_⟩
  · intro b
    unfold clipScore cosineSim
    simp only
    congr 1
    refine Finset.sum_congr rfl ?_
    intro i _
    have h1 : ∀ x, encI m b i x / normF (encI m b i) *
        (encT m b i x / normF (encT m b i)) =
        (encI m b i x * encT m b i x) /
          (normF (encI m b i) * normF (encT m b i)) :=
      fun x => div_mul_div_comm _ _ _ _
    simp only [h1]
    rw [← Finset.sum_div]
  · show (bs.foldl
        (fun (acc : ℚ × ℚ) b =>
          (acc.1 + valBatchLoss bsize fwd logF expF m b,
           acc.2 + clipScore bsize encI encT normF d m b)) (0, 0)).1 /
        (bs.length : ℚ) =
      (bs.map (valBatchLoss bsize fwd logF expF m)).sum / bs.length
    rw [foldl_add_pair]
    simp
  · show (bs.foldl
        (fun (acc : ℚ × ℚ) b =>
          (acc.1 + valBatchLoss bsize fwd logF expF m b,
           acc.2 + clipScore bsize encI encT normF d m b)) (0, 0)).2 /
        (bs.length : ℚ) =
      (bs.map (clipScore bsize encI encT normF d m)).sum / bs.length
    rw [foldl_add_pair]
    simp

/-- Witness for C7 at a concrete input: one validation batch of size 1 with
constant zero logits and constant unit features over the trivial model
type. -/
theorem c7_validation_refines_training_witness :
    (∀ b : ℕ, valBatchLoss oneSize zeroFwd id id () b =
      (trainStep oneSize zeroFwd unitUpd id id () b).2) ∧
    (∀ b : ℕ, clipScore oneSize oneEnc oneEnc oneNorm 1 () b =
      (∑ i in Finset.range (oneSize b),
        cosineSim oneNorm 1 (oneEnc () b i) (oneEnc () b i)) / (oneSize b)) ∧
    (valEpoch oneSize zeroFwd oneEnc oneEnc oneNorm id id 1 () [0]).1 =
      ([0].map (valBatchLoss oneSize zeroFwd id id ())).sum / [0].length ∧
    (valEpoch oneSize zeroFwd oneEnc oneEnc oneNorm id id 1 () [0]).2 =
      ([0].map (clipScore oneSize oneEnc oneEnc oneNorm 1 ())).sum / [0].length :=
  c7_validation_refines_training oneSize zeroFwd unitUpd oneEnc oneEnc
    oneNorm id id 1 () [0] (by simp)
